import Mathlib

/-!
# Verification of the `pkg/workflow` task-graph builder and executor

Shallow embedding of the Go sources of `temporal-serverless-workflow`
(`pkg/workflow/*.go` and the related unnamed parts).  Go `any` values are
modelled by `GoAny`, Go maps threaded through the tasks
(`Variables.Data : map[string]any`, `output : map[string]OutputType`) by
association lists with insert-or-replace update, fallible Go functions by
`Except`, and a Go `panic` inside workflow code by error propagation.
External collaborators (Go's `text/template` runtime, the `gojq` engine, the
HTTP transport and the JSON decoder) are modelled by their documented
behaviour or passed in as explicit oracles, exactly at the boundary where
the source calls out to them.
-/

namespace TSW

/-- Go `any` as used by the workflow package: JSON-like structured values
(`map[string]any`, `[]any`, `string`, numbers, booleans, `nil`). -/
inductive GoAny where
  | null : GoAny
  | bool (b : Bool) : GoAny
  | int (n : Int) : GoAny
  | str (s : String) : GoAny
  | arr (xs : List GoAny) : GoAny
  | obj (fields : List (String × GoAny)) : GoAny
  deriving Repr, Inhabited

/-- `type Variables struct { Data map[string]any }` (types.go). The map is
modelled as an association list; `lookup` finds the first binding. -/
structure Variables where
  data : List (String × GoAny)
  deriving Repr, Inhabited

/-- Map read, `data.Data[k]`. -/
def Variables.lookup (v : Variables) (k : String) : Option GoAny :=
  (v.data.find? (fun p => p.1 = k)).map Prod.snd

/-- Insert-or-replace on the underlying association list, modelling the Go
map assignment `data.Data[k] = x`. -/
def assocInsert (l : List (String × GoAny)) (k : String) (x : GoAny) :
    List (String × GoAny) :=
  match l with
  | [] => [(k, x)]
  | (k', y) :: rest =>
      if k' = k then (k, x) :: rest else (k', y) :: assocInsert rest k x

/-- Map write, `data.Data[k] = x`. -/
def Variables.insert (v : Variables) (k : String) (x : GoAny) : Variables :=
  ⟨assocInsert v.data k x⟩

/-- `type ResultType string` values used by the package (`CallHTTPResultType`). -/
inductive ResultType where
  | callHTTPResult : ResultType
  deriving Repr, DecidableEq

/-- `type OutputType struct { Type ResultType; Data any }` (types.go). -/
structure OutputType where
  type : ResultType
  data : GoAny
  deriving Repr

/-- `output map[string]OutputType`, again as an association list. -/
abbrev OutputMap := List (String × OutputType)

/-- `maps.Copy(output, map[string]OutputType{key: val})`: insert-or-replace. -/
def outputInsert (l : OutputMap) (k : String) (x : OutputType) : OutputMap :=
  match l with
  | [] => [(k, x)]
  | (k', y) :: rest =>
      if k' = k then (k, x) :: rest else (k', y) :: outputInsert rest k x

/-- Key lookup in an `OutputMap`. -/
def outputLookup (l : OutputMap) (k : String) : Option OutputType :=
  (l.find? (fun p => p.1 = k)).map Prod.snd

/-! ## Model of Go's `text/template` as used by `ParseVariables` (utils.go)

`ParseVariables` builds a template with the sprig function map and executes
it against `data.Data` WITHOUT setting `Option("missingkey=error")`.  Under
the documented default (`missingkey=default`), executing `{{ .k }}` against
a map that lacks `k` prints the placeholder `<no value>` and returns no
error.  The model covers the fragment the workflow package feeds it:
literal text and dotted field references `{{ .name }}`; any other action
content is a parse error, as is an unterminated `{{`. -/

/-- One parsed template node: literal text or a `{{ .field }}` reference. -/
inductive TmplNode where
  | lit (s : String) : TmplNode
  | field (name : String) : TmplNode
  deriving Repr, DecidableEq

/-- Characters Go's template lexer accepts in a field identifier. -/
def isIdentChar (c : Char) : Bool :=
  c.isAlphanum || c = '_'

/-- Scan up to the closing `\x7d\x7d` of an action, returning the action
content and the remainder of the input; `none` when the action is
unterminated. -/
def takeUntilClose : List Char → Option (List Char × List Char)
  | [] => none
  | c :: rest =>
      if c = '}' ∧ rest.head? = some '}' then some ([], rest.tail)
      else
        match takeUntilClose rest with
        | none => none
        | some (content, rest') => some (c :: content, rest')

/-- Parse the content of one `{{ ... }}` action: optional spaces, a dot, a
non-empty identifier, optional spaces.  Anything else is rejected, as Go's
parser rejects actions that are neither fields nor known functions. -/
def parseFieldAction (content : List Char) : Except String String :=
  let trimmed := (content.dropWhile (· = ' ')).reverse.dropWhile (· = ' ') |>.reverse
  match trimmed with
  | '.' :: nameChars =>
      if nameChars ≠ [] && nameChars.all isIdentChar then
        .ok (String.mk nameChars)
      else .error "template: bad character in action"
  | _ => .error "template: function not defined"

/-- Fuel-indexed template scanner; the fuel is an upper bound on the input
length, so the `0` case is unreachable from `parseTemplate`. -/
def parseTmplAux : Nat → List Char → Except String (List TmplNode)
  | 0, _ => .error "template: out of fuel"
  | _ + 1, [] => .ok []
  | fuel + 1, c :: rest =>
      if c = '{' ∧ rest.head? = some '{' then
        match takeUntilClose rest.tail with
        | none => .error "template: unclosed action"
        | some (content, rest') => do
            let name ← parseFieldAction content
            let nodes ← parseTmplAux fuel rest'
            .ok (.field name :: nodes)
      else do
        let nodes ← parseTmplAux fuel rest
        .ok (.lit (String.mk [c]) :: nodes)

/-- `template.New("values").Funcs(sprig.FuncMap()).Parse(input)`. -/
def parseTemplate (input : String) : Except String (List TmplNode) :=
  parseTmplAux (input.length + 1) input.data

/-- How `text/template` prints a value found in the data map (`%v`-style).
A present-but-`nil` value prints the same `<no value>` placeholder. -/
def renderGoAny : GoAny → String
  | .null => "<no value>"
  | .bool b => if b then "true" else "false"
  | .int n => toString n
  | .str s => s
  | .arr _ => "[...]"
  | .obj _ => "map[...]"

/-- Execute parsed nodes against the data map.  Under the default
`missingkey` option a missing key renders `<no value>` with NO error. -/
def executeTemplate (nodes : List TmplNode) (data : Variables) : String :=
  match nodes with
  | [] => ""
  | .lit s :: rest => s ++ executeTemplate rest data
  | .field name :: rest =>
      (match data.lookup name with
       | some v => renderGoAny v
       | none => "<no value>") ++ executeTemplate rest data

/-- `func ParseVariables(input string, data *Variables) (string, error)`
(utils.go lines 96–110): parse the template (parse failure → error), then
execute it against `data.Data` (execution cannot fail on the modelled
fragment because `missingkey=error` is never set). -/
def ParseVariables (input : String) (data : Variables) : Except String String := do
  let t ← parseTemplate input
  .ok (executeTemplate t data)

/-- `MustParseVariables` panics where `ParseVariables` errors; a panic in
workflow code aborts the run, which the model folds into `Except`. -/
def MustParseVariables (input : String) (data : Variables) : Except String String :=
  ParseVariables input data

/-! ## Error classification

Errors surfaced by the workflow code are either plain Go errors
(`fmt.Errorf`), Temporal application errors explicitly marked
non-retryable (`temporal.NewNonRetryableApplicationError`), retryable
application errors (`temporal.NewApplicationError`), or timeout errors
(`temporal.NewTimeoutError`). -/
inductive RunErr where
  | plain (msg : String) : RunErr
  | nonRetryable (msg : String) (details : GoAny) : RunErr
  | retryable (msg : String) (details : GoAny) : RunErr
  | timeout : RunErr
  deriving Repr

/-- Whether an error carries the explicit non-retryable classification. -/
def RunErr.isNonRetryable : RunErr → Bool
  | .nonRetryable _ _ => true
  | _ => false

/-! ## Model of `CheckIfStatement` (unnamed part_002, lines 35–84)

The source hands the `if` expression to the external `gojq` engine:
`gojq.Parse(expression)` then `query.Run(data)` which yields an iterator of
values and/or errors.  The engine is embedded as an oracle supplying the
parse outcome and the run results; everything the repository code does with
those outcomes is modelled exactly. -/

/-- One value produced by the `gojq` iterator: a value or an error. -/
inductive JqResult where
  | val (v : GoAny) : JqResult
  | err (msg : String) : JqResult
  deriving Repr

/-- Oracle for the external `gojq` engine: `parse` is `gojq.Parse` (the
parsed query is kept abstract as its source text) and `run` is
`query.Run(data)` materialised as the list the iterator yields. -/
structure JqEngine where
  parse : String → Except String String
  run : String → List (String × GoAny) → List JqResult

/-- `model.SanitizeExpr` from the serverlessworkflow SDK: trim spaces and
strip a `${ ... }` wrapper when present. -/
def sanitizeExpr (s : String) : String :=
  let t := s.trim
  if t.startsWith "$\x7b" && t.endsWith "\x7d" then
    ((t.drop 2).dropRight 1).trim
  else t

/-- The `switch r := v.(type)` inside the iterator loop: a `bool` result
sets `toRun` to it; a `string` result sets `toRun` to
`strings.EqualFold(r, "TRUE") || r == "1"`; any other type leaves the
previous `toRun` unchanged. -/
def jqResolve (v : GoAny) (prev : Bool) : Bool :=
  match v with
  | .bool b => b
  | .str s => s.toLower = "true" || s = "1"
  | _ => prev

/-- The `for { v, ok := iter.Next() ... }` loop: an error value is wrapped
as a NON-RETRYABLE application error and returned immediately; otherwise
each value updates `toRun` and the last state is returned. -/
def jqIterate : List JqResult → Bool → Except RunErr Bool
  | [], toRun => .ok toRun
  | .err msg :: _, _ =>
      .error (.nonRetryable ("Error parsing if statement in JQ: " ++ msg) .null)
  | .val v :: rest, toRun => jqIterate rest (jqResolve v toRun)

/-- `func CheckIfStatement(ctx, task *model.TaskBase, input *Variables)`:
no `if` expression → run (`toRun = true`); a `gojq.Parse` failure → a PLAIN
wrapped error (`fmt.Errorf("unable to parse if statement as expression: %w", err)`,
note: not classified non-retryable); otherwise the iterator loop above,
starting from the zero value `toRun = false`. -/
def CheckIfStatement (jq : JqEngine) (ifExpr : Option String)
    (input : Variables) : Except RunErr Bool :=
  match ifExpr with
  | none => .ok true
  | some e =>
      match jq.parse (sanitizeExpr e) with
      | .error msg =>
          .error (.plain ("unable to parse if statement as expression: " ++ msg))
      | .ok query => jqIterate (jq.run query input.data) false

/-! ## `SlicesEqual` and the Listen completion predicate
(utils.go lines 121–128, taskListen.go lines 259–281) -/

/-- `func SlicesEqual[T comparable](s []T, v T) bool`: the loop returns
`false` at the first element differing from `v`, else `true`. -/
def SlicesEqual {T : Type} [DecidableEq T] : List T → T → Bool
  | [], _ => true
  | r :: rest, v => if r = v then SlicesEqual rest v else false

/-- The completion predicate passed to `workflow.AwaitWithTimeout` inside
`waitForListener`: in `all` mode the task is finished exactly when
`SlicesEqual(isAllComplete, true)`; otherwise when `isAnyComplete`. -/
def listenComplete (isAll isAnyComplete : Bool) (isAllComplete : List Bool) : Bool :=
  if isAll then SlicesEqual isAllComplete true else isAnyComplete

/-- `waitForListener` after the await resolves: predicate satisfied →
`nil`; await timed out → `temporal.NewTimeoutError(...)`. The model takes
the final handler-completion state the await observed. -/
def waitForListener (isAll isAnyComplete : Bool) (isAllComplete : List Bool) :
    Except RunErr Unit :=
  if listenComplete isAll isAnyComplete isAllComplete then .ok ()
  else .error .timeout

/-! ## Model of the `CallHTTP` activity's response handling
(taskCallHTTP.go lines 73–172)

The request construction and transport (`http.Client.Do`) are outside the
deterministic boundary; the model starts from the response the transport
returned and the outcome of `json.Unmarshal(bodyRes, &bodyJSON)` — the
latter supplied as an oracle (`jsonParse`), succeeding exactly when the
body decodes as a JSON object into `map[string]any`. -/

/-- The relevant fields of the `*http.Response` the transport produced. -/
structure HttpResponse where
  statusCode : Nat
  status : String
  body : String
  deriving Repr

/-- `type CallHTTPResult struct` (taskCallHTTP.go lines 37–44). -/
structure CallHTTPResult where
  body : String
  bodyJSON : Option (List (String × GoAny))
  method : String
  status : String
  statusCode : Nat
  url : String
  deriving Repr

/-- `json.Unmarshal` into `map[string]any`: the decode outcome. -/
abbrev JsonParse := String → Option (List (String × GoAny))

/-- The `HTTPData{"status": ..., "body": ..., "json": ...}` detail attached
to 4xx/5xx application errors. -/
def httpErrDetails (statusCode : Nat) (bodyStr : String)
    (bodyJSON : Option (List (String × GoAny))) : GoAny :=
  .obj [("status", .int statusCode), ("body", .str bodyStr),
        ("json", match bodyJSON with | some o => .obj o | none => .null)]

/-- Response handling of `func (a *activities) CallHTTP`: try the body as
JSON (keeping the raw text only when the decode fails), then classify by
status code: `400 ≤ code < 500` → non-retryable application error carrying
status/body/json; `500 ≤ code < 600` → retryable application error carrying
the same detail; anything else → a `CallHTTPResult` success. -/
def classifyHTTPResponse (jsonParse : JsonParse) (resp : HttpResponse)
    (method url : String) : Except RunErr CallHTTPResult :=
  let bodyJSON := jsonParse resp.body
  let bodyStr := match bodyJSON with | some _ => "" | none => resp.body
  if 400 ≤ resp.statusCode ∧ resp.statusCode < 500 then
    .error (.nonRetryable "CallHTTP returned 4xx error"
      (httpErrDetails resp.statusCode bodyStr bodyJSON))
  else if 500 ≤ resp.statusCode ∧ resp.statusCode < 600 then
    .error (.retryable "CallHTTP returned 5xx error"
      (httpErrDetails resp.statusCode bodyStr bodyJSON))
  else
    .ok { body := bodyStr, bodyJSON := bodyJSON, method := method,
          status := resp.status, statusCode := resp.statusCode, url := url }

/-! ## Model of the Set task (taskSet.go lines 27–122)

`setTaskValue` wraps the render in `workflow.SideEffect`; the side-effect
primitive records and replays the value, so in a single run it is the
identity on the computed value.  `MustParseVariables` panics on a template
error; the panic aborts the workflow run, folded into `Except` here. -/
def setTaskValue (input : String) (data : Variables) : Except String String :=
  MustParseVariables input data

mutual

/-- `func setTaskInterpolate(ctx, keyID, input any, data *Variables)`:
objects are rebuilt with every key rendered (the source renders a key by
recursing on it, which always lands in the string case since Go map keys
are strings) and every value recursed; arrays recurse element-wise; strings
are rendered through `setTaskValue`.  Any other type falls into the
`default:` branch, which only logs `Maintaining JSON type` and never
assigns the named return `outputValue` — so the function returns the Go
zero value `nil` for every non-string, non-object, non-array leaf. -/
def setTaskInterpolate (input : GoAny) (data : Variables) : Except String GoAny :=
  match input with
  | .obj fields => do
      let obj ← setTaskInterpolateObj fields [] data
      .ok (.obj obj)
  | .arr xs => do
      let arr ← setTaskInterpolateArr xs data
      .ok (.arr arr)
  | .str s => do
      let v ← setTaskValue s data
      .ok (.str v)
  | _ => .ok .null

/-- The `for i, item := range v` loop of the object case: `obj[keyStr] = o`
accumulates into a fresh map, so a later rendered key overwrites an earlier
equal one. -/
def setTaskInterpolateObj (fields : List (String × GoAny))
    (acc : List (String × GoAny)) (data : Variables) :
    Except String (List (String × GoAny)) :=
  match fields with
  | [] => .ok acc
  | (k, item) :: rest => do
      let key ← setTaskValue k data
      let o ← setTaskInterpolate item data
      setTaskInterpolateObj rest (assocInsert acc key o) data

/-- The array case: each element recursed in order. -/
def setTaskInterpolateArr (xs : List GoAny) (data : Variables) :
    Except String (List GoAny) :=
  match xs with
  | [] => .ok []
  | item :: rest => do
      let o ← setTaskInterpolate item data
      let os ← setTaskInterpolateArr rest data
      .ok (o :: os)

end

/-- The loop body of `setTaskImpl` (taskSet.go lines 107–122): for each
pair, interpolate the VALUE through `setTaskInterpolate` and assign it
under the RAW key (`data.Data[key] = value` — the top-level key is not
rendered).  An interpolation error aborts, leaving the writes of earlier
iterations in place. -/
def setTaskRun (pairs : List (String × GoAny)) (data : Variables) :
    Variables × Option RunErr :=
  match pairs with
  | [] => (data, none)
  | (key, value) :: rest =>
      match setTaskInterpolate value data with
      | .error e => (data, some (.plain e))
      | .ok v => setTaskRun rest (data.insert key v)

/-! ## The declarative task tree (`model.TaskItem` as used by the package)

Each `model.TaskItem` is exactly one task kind; the SDK's
`item.AsXxxTask()` accessors return non-nil precisely for that kind, so the
tagged union below reproduces the dispatch-by-kind behaviour of the
source's `if ... := item.AsXxxTask(); ... != nil` chains. -/

/-- The `model.TaskBase` fields the package reads (`task.If`). -/
structure TaskBase where
  ifExpr : Option String := none
  deriving Repr

/-- An event filter of a Listen task: `event.With.ID`, `event.With.Type`,
and the optional `"if"` entry of `event.With.Additional`. -/
structure EventFilter where
  id : String
  type : String
  ifCond : Option String := none
  deriving Repr

/-- `task.Listen.To`: its `All`/`Any` lists, `One` and `Until` fields. -/
structure ListenTo where
  all : List EventFilter := []
  any : List EventFilter := []
  one : Option EventFilter := none
  untilF : Option String := none
  deriving Repr

/-- The `callHttp.With` fields the package reads. -/
structure CallHTTPConfig where
  method : String := "get"
  endpoint : String := ""
  headers : List (String × String) := []
  query : List (String × String) := []
  body : String := ""
  deriving Repr

/-- One node of the declarative document, keyed by `item.Key`. -/
inductive TaskItem where
  | set (key : String) (base : TaskBase) (pairs : List (String × GoAny)) : TaskItem
  | wait (key : String) (base : TaskBase) (durationMs : Nat) : TaskItem
  | callHTTP (key : String) (base : TaskBase) (cfg : CallHTTPConfig) : TaskItem
  | fork (key : String) (base : TaskBase) (compete : Bool)
      (branches : List TaskItem) : TaskItem
  | listen (key : String) (base : TaskBase) (lt : ListenTo) : TaskItem
  | doTask (key : String) (base : TaskBase) (tasks : List TaskItem) : TaskItem
  | raise (key : String) (base : TaskBase) : TaskItem
  | switchTask (key : String) (base : TaskBase) : TaskItem
  | emit (key : String) (base : TaskBase) : TaskItem
  | forTask (key : String) (base : TaskBase) : TaskItem
  | grpc (key : String) (base : TaskBase) : TaskItem
  | openapi (key : String) (base : TaskBase) : TaskItem
  | run (key : String) (base : TaskBase) : TaskItem
  | tryTask (key : String) (base : TaskBase) : TaskItem
  deriving Repr

/-- `item.Key`. -/
def TaskItem.key : TaskItem → String
  | .set k .. => k | .wait k .. => k | .callHTTP k .. => k | .fork k .. => k
  | .listen k .. => k | .doTask k .. => k | .raise k .. => k
  | .switchTask k .. => k | .emit k .. => k | .forTask k .. => k
  | .grpc k .. => k | .openapi k .. => k | .run k .. => k | .tryTask k .. => k

/-! ## `Validate` (types.go lines 92–127) -/

/-- The per-task check chain of `Validate`: the ten `AsXxxTask` tests in
source order, each returning its error message. -/
def validateTask : TaskItem → Option String
  | .emit .. => some "emit tasks are not supported"
  | .forTask .. => some "for tasks are not supported"
  | .fork .. => some "fork tasks are not supported"
  | .grpc .. => some "grpc tasks are not supported"
  | .listen .. => some "listen tasks are not supported"
  | .openapi .. => some "openapi tasks are not supported"
  | .raise .. => some "raise tasks are not supported"
  | .run .. => some "run tasks are not supported"
  | .switchTask .. => some "switch tasks are not supported"
  | .tryTask .. => some "try tasks are not supported"
  | _ => none

/-- `func (w *Workflow) Validate() error`: walk `w.wf.Do` and return the
first unsupported-kind error, `nil` (`none`) otherwise. -/
def Validate : List TaskItem → Option String
  | [] => none
  | t :: rest =>
      match validateTask t with
      | some e => some e
      | none => Validate rest

/-! ## The task-graph builder (unnamed part_003, lines 79–154, and the
per-kind builders it dispatches to) -/

/-- Build-time errors (taskFork.go lines 104–112 declares the sentinel
errors; `wrap` models `fmt.Errorf("...: %w", err)` chains). -/
inductive BuildErr where
  | unsetListenID : BuildErr
  | unsetListenType : BuildErr
  | unknownListenType : BuildErr
  | unsupportedTask (what : String) : BuildErr
  | wrap (msg : String) (e : BuildErr) : BuildErr
  deriving Repr

/-- `func GenerateChildWorkflowName(prefix string, prefixes ...string)`. -/
def GenerateChildWorkflowName (p : String) (rest : List String) : String :=
  "workflow_" ++ String.intercalate "_" (p :: rest)

/-- `func validateEventFilter(event *model.EventFilter) error`
(taskListen.go lines 283–302): non-empty id, non-empty type, type among
`query`/`signal`/`update`. -/
def validateEventFilter (e : EventFilter) : Option BuildErr :=
  if e.id = "" then some .unsetListenID
  else if e.type = "" then some .unsetListenType
  else if e.type = "query" || e.type = "signal" || e.type = "update" then none
  else some .unknownListenType

/-- The `for k, i := range ...` validation loops of `listenConfigure`,
wrapping a failure as `fmt.Errorf("%w: %s.%d", err, key, k)`. -/
def validateFilters (key : String) (k : Nat) :
    List EventFilter → Option BuildErr
  | [] => none
  | e :: rest =>
      match validateEventFilter e with
      | some err => some (.wrap (key ++ "." ++ toString k) err)
      | none => validateFilters key (k + 1) rest

/-- `func listenConfigure(task *model.ListenTask, key string)`
(taskListen.go lines 162–198): `All` non-empty → all-mode; else `Any`
non-empty → any-mode; else `One` set → one event, any-mode; else `Until`
set → `ErrUnsupportedTask: listen.to.until`; else `ErrUnsetListenIDTask`. -/
def listenConfigure (lt : ListenTo) (key : String) :
    Except BuildErr (List EventFilter × Bool) :=
  if lt.all.length > 0 then
    match validateFilters key 0 lt.all with
    | some err => .error err
    | none => .ok (lt.all, true)
  else if lt.any.length > 0 then
    match validateFilters key 0 lt.any with
    | some err => .error err
    | none => .ok (lt.any, false)
  else
    match lt.one with
    | some e =>
        match validateEventFilter e with
        | some err => .error (.wrap key err)
        | none => .ok ([e], false)
    | none =>
        match lt.untilF with
        | some _ => .error (.unsupportedTask "listen.to.until")
        | none => .error .unsetListenID

mutual

/-- The executable unit a builder dispatch produced, defunctionalised: each
constructor records what the corresponding closure captured. -/
inductive BuiltUnit where
  | httpTask (key : String) (base : TaskBase) (cfg : CallHTTPConfig) : BuiltUnit
  | setTask (pairs : List (String × GoAny)) : BuiltUnit
  | waitTask (durationMs : Nat) : BuiltUnit
  | forkTask (forkKey : String) (children : List TemporalWorkflow) : BuiltUnit
  | listenTask (events : List EventFilter) (isAll : Bool) : BuiltUnit

/-- `type TemporalWorkflow struct { EnvPrefix, Name string; Timeout
time.Duration; Tasks []TemporalWorkflowTask }`. -/
inductive TemporalWorkflow where
  | mk (envPrefix : String) (name : String) (timeoutMs : Nat)
      (tasks : List (String × BuiltUnit)) : TemporalWorkflow

end

/-- The task list of a built workflow. -/
def TemporalWorkflow.tasks : TemporalWorkflow → List (String × BuiltUnit)
  | .mk _ _ _ ts => ts

/-- The name of a built workflow. -/
def TemporalWorkflow.name : TemporalWorkflow → String
  | .mk _ n _ _ => n

/-- The builder-side configuration of `*Workflow`: the env prefix and the
already-resolved workflow timeout (`defaultWorkflowTimeout`, five minutes,
unless the document declares one — types outside src resolve it before the
loop in `workflowBuilder`). -/
structure WorkflowCfg where
  envPrefix : String := ""
  name : String := "example"
  timeoutMs : Nat := 5 * 60 * 1000

mutual

/-- One iteration of the `for _, item := range *tasks` loop of
`workflowBuilder` (part_003 lines 95–148): the dispatch chain produces an
optional unit plus (for Do) additional child workflows; kinds outside
{CallHTTP, Do, Fork, Listen, Set, Wait} set neither `task` nor `err`, so
the builder logs a warning and the `if task != nil` guard drops the node
silently.  Fork builds its branch list recursively (`forkTaskImpl`,
taskFork.go lines 27–37), wrapping a failure as
`error building forked workflow`; Listen runs `listenConfigure` at build
time (`listenTaskImpl`, taskListen.go lines 200–204). -/
def buildItem (w : WorkflowCfg) :
    TaskItem → Except BuildErr (Option BuiltUnit × List TemporalWorkflow)
  | .callHTTP key base cfg => .ok (some (.httpTask key base cfg), [])
  | .doTask key _ tasks => do
      let extra ← workflowBuilder w tasks (GenerateChildWorkflowName "do" [key])
      .ok (none, extra)
  | .fork key _ _ branches =>
      match workflowBuilder w branches (GenerateChildWorkflowName "fork" [key]) with
      | .error e => .error (.wrap "error building forked workflow" e)
      | .ok children => .ok (some (.forkTask key children), [])
  | .listen key _ lt =>
      match listenConfigure lt key with
      | .error e => .error e
      | .ok (events, isAll) => .ok (some (.listenTask events isAll), [])
  | .set _ _ pairs => .ok (some (.setTask pairs), [])
  | .wait _ _ ms => .ok (some (.waitTask ms), [])
  | _ => .ok (none, [])

/-- The loop of `workflowBuilder` over the remaining items, accumulating
the main workflow's task list and the additional (Do-derived) workflows. -/
def buildLoop (w : WorkflowCfg) :
    List TaskItem →
    Except BuildErr (List (String × BuiltUnit) × List TemporalWorkflow)
  | [] => .ok ([], [])
  | item :: rest => do
      let (unit?, extra) ← buildItem w item
      let (units, extras) ← buildLoop w rest
      match unit? with
      | some u => .ok ((item.key, u) :: units, extra ++ extras)
      | none => .ok (units, extra ++ extras)

/-- `func (w *Workflow) workflowBuilder(tasks *model.TaskList, name
string)` (part_003 lines 79–154): run the loop, then append the main
workflow (Do-derived children come first, the main workflow last, matching
the two `wfs = append(...)` sites). -/
def workflowBuilder (w : WorkflowCfg) (tasks : List TaskItem) (name : String) :
    Except BuildErr (List TemporalWorkflow) := do
  let (units, extras) ← buildLoop w tasks
  .ok (extras ++ [.mk w.envPrefix name w.timeoutMs units])

end

/-- `func (w *Workflow) BuildWorkflows()` (part_003 lines 157–167). -/
def BuildWorkflows (w : WorkflowCfg) (doList : List TaskItem) :
    Except BuildErr (List TemporalWorkflow) :=
  match workflowBuilder w doList w.name with
  | .error e => .error (.wrap "error building workflows" e)
  | .ok wfs => .ok wfs

/-! ## Runtime of the built units

The durable-execution host and the out-of-process world are an oracle
(`ExecEnv`): the gojq engine, the JSON decoder, the HTTP transport result
per task key, and which update events had fired when a Listen await
resolved.  Host-mediated externally-visible actions are recorded as an
effect trace. -/

/-- Externally visible actions a unit performs through the host. -/
inductive Effect where
  | httpCall (key : String) : Effect
  | sleep (ms : Nat) : Effect
  deriving Repr, DecidableEq

/-- The execution oracle. -/
structure ExecEnv where
  jq : JqEngine
  jsonParse : JsonParse
  http : String → HttpResponse
  updatesFired : String → Bool

/-- JSON encoding of a `CallHTTPResult` as it lands in `OutputType.Data`. -/
def callHTTPResultToGoAny (r : CallHTTPResult) : GoAny :=
  .obj [("body", .str r.body),
        ("bodyJSON", match r.bodyJSON with | some o => .obj o | none => .null),
        ("method", .str r.method), ("status", .str r.status),
        ("statusCode", .int r.statusCode), ("url", .str r.url)]

/-- The result of running one unit: the (shared, mutated-in-place)
variable context, the output map, the effect trace, and the error if the
unit failed. -/
abbrev UnitResult := Variables × OutputMap × List Effect × Option RunErr

mutual

/-- Interpreter for a built unit, mirroring the per-kind closures:

* `setTask` — `setTaskImpl` (taskSet.go lines 107–122): no guard check,
  interpolate each value and assign under the raw key.
* `waitTask` — `waitTaskImpl`: `workflow.Sleep(ctx, duration)`.
* `httpTask` — `httpTaskImpl` (taskCallHTTP.go lines 174–201): evaluate the
  guard first (an error aborts; `false` returns with nothing written and no
  call made); then run the `CallHTTP` activity (request construction and
  transport abstracted into `env.http`; method and URL are rendered with
  `MustParseVariables` as in the activity) and on success merge the result
  into the output under the task key.
* `forkTask` — `forkTaskImpl` (taskFork.go lines 39–82): every branch task
  is started with THE SAME `data` pointer and its own fresh output map `o`;
  branch results stay in `o`, which is dropped; after the join the first
  collected error (if any) is returned; the parent's `output` is never
  written.  Temporal coroutines are cooperatively scheduled on one logical
  thread, so the branches are interpreted in spawn order.
* `listenTask` — `listenTaskImpl` (taskListen.go lines 206–256): only
  update-type events install completion handlers and force the await; the
  completion vector entry of a non-update event never becomes true.  The
  await is resolved against the oracle's final fired state via
  `waitForListener`. -/
def runUnit (env : ExecEnv) (u : BuiltUnit) (data : Variables)
    (output : OutputMap) : UnitResult :=
  match u with
  | .setTask pairs =>
      let (data', err?) := setTaskRun pairs data
      (data', output, [], err?)
  | .waitTask ms => (data, output, [.sleep ms], none)
  | .httpTask key base cfg =>
      match CheckIfStatement env.jq base.ifExpr data with
      | .error e => (data, output, [], some e)
      | .ok false => (data, output, [], none)
      | .ok true =>
          match MustParseVariables cfg.method data,
                MustParseVariables cfg.endpoint data with
          | .error e, _ => (data, output, [], some (.plain e))
          | _, .error e => (data, output, [], some (.plain e))
          | .ok m, .ok url =>
              match classifyHTTPResponse env.jsonParse (env.http key)
                  m.toUpper url with
              | .error e => (data, output, [.httpCall key], some e)
              | .ok r =>
                  (data,
                   outputInsert output key
                     ⟨.callHTTPResult, callHTTPResultToGoAny r⟩,
                   [.httpCall key], none)
  | .forkTask _ children =>
      let (data', effs, errs) := forkRunChildren env children data
      (data', output, effs, errs.head?)
  | .listenTask events isAll =>
      let isAllComplete := events.map
        (fun e => e.type = "update" && env.updatesFired e.id)
      let isAnyComplete := events.any
        (fun e => e.type = "update" && env.updatesFired e.id)
      let await := events.any (fun e => e.type = "update")
      if await then
        match waitForListener isAll (!isAll && isAnyComplete)
            (if isAll then isAllComplete else []) with
        | .error e => (data, output, [], some e)
        | .ok _ => (data, output, [], none)
      else (data, output, [], none)

/-- The fork's outer loop over its built child workflows. -/
def forkRunChildren (env : ExecEnv) (children : List TemporalWorkflow)
    (data : Variables) : Variables × List Effect × List RunErr :=
  match children with
  | [] => (data, [], [])
  | .mk _ _ _ tasks :: rest =>
      let (d1, e1, r1) := forkRunTasks env tasks data
      let (d2, e2, r2) := forkRunChildren env rest d1
      (d2, e1 ++ e2, r1 ++ r2)

/-- The fork's inner loop: one `workflow.Go` coroutine per branch task,
each given the shared `data` and a fresh empty output map; an error is
pushed onto the `errs` channel, otherwise the branch's output is left in
its private map. -/
def forkRunTasks (env : ExecEnv) (tasks : List (String × BuiltUnit))
    (data : Variables) : Variables × List Effect × List RunErr :=
  match tasks with
  | [] => (data, [], [])
  | (_, t) :: rest =>
      let (d1, _o, e1, err?) := runUnit env t data []
      let (d2, e2, r2) := forkRunTasks env rest d1
      (d2, e1 ++ e2, (match err? with | some e => [e] | none => []) ++ r2)

end

/-- The `for _, task := range t.Tasks` loop of `TemporalWorkflow.Workflow`
(part_003 lines 68–74): units run strictly in order against one context and
one output map, stopping at the first error. -/
def runTaskList (env : ExecEnv) (tasks : List (String × BuiltUnit))
    (data : Variables) (output : OutputMap) : UnitResult :=
  match tasks with
  | [] => (data, output, [], none)
  | (_, t) :: rest =>
      match runUnit env t data output with
      | (data', output', eff, some e) => (data', output', eff, some e)
      | (data', output', eff, none) =>
          let (d, o, effs, r) := runTaskList env rest data' output'
          (d, o, eff ++ effs, r)

/-! ## Auxiliary definitions used by the statements -/

/-- A template string that contains no `\x7b\x7b` action opener: no two
consecutive opening braces anywhere. -/
def noActionOpener : List Char → Bool
  | [] => true
  | ['{'] => true
  | [_] => true
  | a :: b :: rest => !(a = '{' && b = '{') && noActionOpener (b :: rest)

/-- A non-empty Go template field identifier. -/
def isIdentName (s : String) : Bool :=
  s.data ≠ [] && s.data.all isIdentChar

/-- The truthiness table as the spec words it: boolean true, or a string
equal case-insensitively to "true" or equal to "1"; everything else falsy.
Stated separately from the source-derived `jqResolve` so the two can be
compared. -/
def specTruthy : GoAny → Bool
  | .bool b => b
  | .str s => s.toLower = "true" || s = "1"
  | _ => false

/-- The task kinds for which the builder dispatch produces an executable
unit in the main workflow's task list. -/
def producesUnit : TaskItem → Bool
  | .set .. => true
  | .wait .. => true
  | .callHTTP .. => true
  | .fork .. => true
  | .listen .. => true
  | _ => false

/-- The task kinds `Validate` rejects that the spec calls implemented. -/
def validateRejectedKind : TaskItem → Bool
  | .fork .. => true
  | .listen .. => true
  | .raise .. => true
  | .switchTask .. => true
  | _ => false

/-- The keys of the `httpTask` units of a task list — the only units whose
run can add an entry to the sequence's OutputMap. -/
def httpKeys : List (String × BuiltUnit) → List String
  | [] => []
  | (_, .httpTask key _ _) :: rest => key :: httpKeys rest
  | _ :: rest => httpKeys rest

/-- A gojq engine for concrete runs: every query parses, and every
evaluation yields the single value `v`. -/
def jqConstEngine (v : GoAny) : JqEngine :=
  { parse := fun s => .ok s, run := fun _ _ => [.val v] }

/-- A gojq engine that rejects every expression at parse time. -/
def jqParseFailEngine : JqEngine :=
  { parse := fun _ => .error "unexpected token <EOF>",
    run := fun _ _ => [] }

/-- A gojq engine whose evaluation yields a single error value. -/
def jqEvalErrEngine : JqEngine :=
  { parse := fun s => .ok s, run := fun _ _ => [.err "cannot iterate over null"] }

/-- A concrete execution oracle: guards evaluate to `guardVal`, the
transport always answers `resp`, no body decodes as a JSON object, and no
update event has fired. -/
def mkEnv (guardVal : GoAny) (resp : HttpResponse) : ExecEnv :=
  { jq := jqConstEngine guardVal, jsonParse := fun _ => none,
    http := fun _ => resp, updatesFired := fun _ => false }

/-- A 200 response with a non-JSON body. -/
def okResp : HttpResponse := { statusCode := 200, status := "200 OK", body := "pong" }

/-! ## Supporting lemmas: the template engine -/

/-- Scanning literal text (no closing braces) up to a `\x7d\x7d` closer
returns that text and what follows the closer. -/
theorem takeUntilClose_no_close (xs rest : List Char)
    (h : ∀ c ∈ xs, c ≠ '}') :
    takeUntilClose (xs ++ '}' :: '}' :: rest) = some (xs, rest) := by
  induction xs with
  | nil => simp [takeUntilClose]
  | cons x t ih =>
      have hx : x ≠ '}' := h x (List.mem_cons_self x t)
      have ht : ∀ c ∈ t, c ≠ '}' := fun c hc => h c (List.mem_cons_of_mem x hc)
      rw [List.cons_append]
      simp only [takeUntilClose]
      rw [if_neg (by simp [hx]), ih ht]

/-- A template with no `\x7b\x7b` opener parses to one literal node per
character. -/
theorem parseTmplAux_noAction (cs : List Char) :
    ∀ fuel, noActionOpener cs = true → cs.length < fuel →
    parseTmplAux fuel cs = .ok (cs.map fun c => .lit (String.mk [c])) := by
  induction cs with
  | nil =>
      intro fuel _ hf
      match fuel, hf with
      | f + 1, _ => simp [parseTmplAux]
  | cons c rest ih =>
      intro fuel hna hf
      match fuel, hf with
      | f + 1, hf =>
        have hcond : ¬(c = '{' ∧ rest.head? = some '{') := by
          intro ⟨hc, hh⟩
          cases rest with
          | nil => simp at hh
          | cons b t =>
              simp at hh
              rw [hc, hh] at hna
              simp [noActionOpener] at hna
        have hna' : noActionOpener rest = true := by
          cases rest with
          | nil => rfl
          | cons b t =>
              simp [noActionOpener] at hna
              exact hna.2
        simp only [parseTmplAux]
        rw [if_neg hcond, ih f hna' (by simpa using Nat.lt_of_succ_lt_succ hf)]
        rfl

/-- Executing per-character literal nodes concatenates them back. -/
theorem executeTemplate_lits (cs : List Char) (data : Variables) :
    executeTemplate (cs.map fun c => .lit (String.mk [c])) data = String.mk cs := by
  induction cs with
  | nil => rfl
  | cons c rest ih =>
      simp only [List.map_cons, executeTemplate, ih]
      rfl

/-- A literal-only template (no `\x7b\x7b` opener) renders to itself for
every context. -/
theorem ParseVariables_literal (s : String) (data : Variables)
    (h : noActionOpener s.data = true) :
    ParseVariables s data = .ok s := by
  unfold ParseVariables parseTemplate
  rw [parseTmplAux_noAction s.data (s.length + 1) h (Nat.lt_succ_self _)]
  show Except.ok (executeTemplate (s.data.map fun c => .lit (String.mk [c])) data) = .ok s
  rw [executeTemplate_lits]

/-- An identifier character is not a space. -/
theorem identChar_ne_space {c : Char} (h : isIdentChar c = true) : c ≠ ' ' := by
  intro hc; subst hc; exact absurd h (by decide)

/-- An identifier character is not a closing brace. -/
theorem identChar_ne_rbrace {c : Char} (h : isIdentChar c = true) : c ≠ '}' := by
  intro hc; subst hc; exact absurd h (by decide)

/-- Parsing the action content ` .name ` yields the field `name`. -/
theorem parseFieldAction_ident (name : String) (h : isIdentName name = true) :
    parseFieldAction (' ' :: '.' :: (name.data ++ [' '])) = .ok name := by
  simp only [isIdentName, Bool.and_eq_true, decide_eq_true_eq, List.all_eq_true] at h
  obtain ⟨hne, hall⟩ := h
  obtain ⟨c, t, hct⟩ : ∃ c t, name.data.reverse = c :: t := by
    cases hrv : name.data.reverse with
    | nil => exact absurd (by simpa using congrArg List.reverse hrv) hne
    | cons c t => exact ⟨c, t, rfl⟩
  have hc : isIdentChar c = true := hall c (by
    have : c ∈ name.data.reverse := by rw [hct]; exact List.mem_cons_self c t
    simpa using this)
  unfold parseFieldAction
  have h1 : List.dropWhile (fun x => decide (x = ' '))
      (' ' :: '.' :: (name.data ++ [' '])) = '.' :: (name.data ++ [' ']) := by
    simp [List.dropWhile]
  rw [h1]
  have h2 : ('.' :: (name.data ++ [' '])).reverse = ' ' :: (name.data.reverse ++ ['.']) := by
    simp
  rw [h2]
  have h3 : List.dropWhile (fun x => decide (x = ' '))
      (' ' :: (name.data.reverse ++ ['.'])) = name.data.reverse ++ ['.'] := by
    rw [hct, List.cons_append, List.dropWhile_cons, if_pos (by simp),
      List.dropWhile_cons, if_neg (by simp [identChar_ne_space hc])]
  rw [h3]
  have h4 : (name.data.reverse ++ ['.']).reverse = '.' :: name.data := by simp
  rw [h4]
  have hcond : (decide (name.data ≠ []) && name.data.all isIdentChar) = true := by
    rw [Bool.and_eq_true]
    exact ⟨decide_eq_true hne, List.all_eq_true.mpr hall⟩
  show (if (decide (name.data ≠ []) && name.data.all isIdentChar) = true
      then (Except.ok (String.mk name.data) : Except String String)
      else Except.error "template: bad character in action") = Except.ok name
  rw [if_pos hcond]

/-- On an empty input the scanner returns no nodes (any positive fuel). -/
theorem parseTmplAux_nil (f : Nat) (h : 0 < f) : parseTmplAux f [] = .ok [] := by
  match f, h with
  | g + 1, _ => rfl

/-- A single-field template parses to exactly that field reference. -/
theorem parseTemplate_field (name : String) (hname : isIdentName name = true) :
    parseTemplate ("\x7b\x7b ." ++ name ++ " \x7d\x7d") = .ok [.field name] := by
  have hall : ∀ c ∈ name.data, isIdentChar c = true := by
    simp only [isIdentName, Bool.and_eq_true, decide_eq_true_eq,
      List.all_eq_true] at hname
    exact hname.2
  have hdata : ("\x7b\x7b ." ++ name ++ " \x7d\x7d").data =
      '{' :: '{' :: ((' ' :: '.' :: (name.data ++ [' '])) ++ '}' :: '}' :: []) := by
    rw [String.data_append, String.data_append]
    simp
  have hlen : 0 < ("\x7b\x7b ." ++ name ++ " \x7d\x7d").length := by
    rw [show ("\x7b\x7b ." ++ name ++ " \x7d\x7d").length =
      ("\x7b\x7b ." ++ name ++ " \x7d\x7d").data.length from rfl, hdata]
    simp
  unfold parseTemplate
  rw [hdata]
  simp only [parseTmplAux]
  rw [if_pos (by simp), List.tail_cons]
  rw [takeUntilClose_no_close (' ' :: '.' :: (name.data ++ [' '])) []
    (by
      intro c hc
      simp only [List.mem_cons, List.mem_append] at hc
      rcases hc with h1 | h1 | h1 | h1 | h1
      · rw [h1]; decide
      · rw [h1]; decide
      · exact identChar_ne_rbrace (hall c h1)
      · rw [h1]; decide
      · simp at h1)]
  show (do
      let nm ← parseFieldAction (' ' :: '.' :: (name.data ++ [' ']))
      let nodes ← parseTmplAux ("\x7b\x7b ." ++ name ++ " \x7d\x7d").length []
      Except.ok (TmplNode.field nm :: nodes) : Except String (List TmplNode)) =
    .ok [TmplNode.field name]
  rw [parseFieldAction_ident name hname]
  show (do
      let nodes ← parseTmplAux ("\x7b\x7b ." ++ name ++ " \x7d\x7d").length []
      Except.ok (TmplNode.field name :: nodes) : Except String (List TmplNode)) =
    .ok [TmplNode.field name]
  rw [parseTmplAux_nil _ hlen]
  rfl

/-- Rendering a reference to a path absent from the context yields the
`<no value>` placeholder with NO error. -/
theorem ParseVariables_missing_field (name : String) (data : Variables)
    (hname : isIdentName name = true) (habs : data.lookup name = none) :
    ParseVariables ("\x7b\x7b ." ++ name ++ " \x7d\x7d") data = .ok "<no value>" := by
  unfold ParseVariables
  rw [parseTemplate_field name hname]
  show Except.ok (executeTemplate [.field name] data) = .ok "<no value>"
  simp only [executeTemplate, habs]
  rfl

/-! ## Supporting lemmas: output maps and the runtime -/

/-- Lookup after a cons: hit the head key or recurse. -/
theorem outputLookup_cons (a : String) (b : OutputType) (rest : OutputMap) (k : String) :
    outputLookup ((a, b) :: rest) k = if a = k then some b else outputLookup rest k := by
  by_cases hak : a = k
  · simp [outputLookup, List.find?_cons, hak]
  · simp [outputLookup, List.find?_cons, hak]

/-- A key found after an insert is the inserted key or was already there. -/
theorem outputLookup_insert_ne_none (o : OutputMap) (key : String) (x : OutputType)
    (k : String) (h : outputLookup (outputInsert o key x) k ≠ none) :
    k = key ∨ outputLookup o k ≠ none := by
  induction o with
  | nil =>
      left
      simp only [outputInsert, outputLookup_cons] at h
      by_cases hk : key = k
      · exact hk.symm
      · rw [if_neg hk] at h
        exact absurd (rfl : outputLookup ([] : OutputMap) k = none) h
  | cons p rest ih =>
      obtain ⟨a, b⟩ := p
      simp only [outputInsert] at h
      by_cases hak : a = key
      · rw [if_pos hak] at h
        rw [outputLookup_cons] at h
        by_cases hkk : key = k
        · exact Or.inl hkk.symm
        · rw [if_neg hkk] at h
          right
          rw [outputLookup_cons, if_neg (by rw [hak]; exact hkk)]
          exact h
      · rw [if_neg hak, outputLookup_cons] at h
        by_cases hakk : a = k
        · right
          rw [outputLookup_cons, if_pos hakk]
          simp
        · rw [if_neg hakk] at h
          rcases ih h with hk | ho
          · exact Or.inl hk
          · right
            rw [outputLookup_cons, if_neg hakk]
            exact ho

/-- Running one unit adds an OutputMap entry only when the unit is a
CallHTTP unit and only under that unit's task key. -/
theorem runUnit_output_lookup (env : ExecEnv) (u : BuiltUnit) (data : Variables)
    (output : OutputMap) (k : String)
    (h : outputLookup (runUnit env u data output).2.1 k ≠ none) :
    outputLookup output k ≠ none ∨ ∃ base cfg, u = BuiltUnit.httpTask k base cfg := by
  cases u with
  | setTask pairs =>
      left
      rcases hs : setTaskRun pairs data with ⟨d, e⟩
      simpa [runUnit, hs] using h
  | waitTask ms => left; simpa [runUnit] using h
  | forkTask fk children =>
      left
      rcases hf : forkRunChildren env children data with ⟨d, p⟩
      simpa [runUnit, hf] using h
  | listenTask events isAll =>
      left
      revert h
      simp only [runUnit]
      split
      · split <;> (intro h; simpa using h)
      · intro h; simpa using h
  | httpTask key base cfg =>
      revert h
      simp only [runUnit]
      split
      · intro h; exact Or.inl (by simpa using h)
      · intro h; exact Or.inl (by simpa using h)
      · split
        · intro h; exact Or.inl (by simpa using h)
        · intro h; exact Or.inl (by simpa using h)
        · split
          · intro h; exact Or.inl (by simpa using h)
          · intro h
            rcases outputLookup_insert_ne_none output key _ k (by simpa using h)
                with hk | ho
            · right; exact ⟨base, cfg, by rw [hk]⟩
            · exact Or.inl ho

/-- Across a whole sequence, every OutputMap entry present at the end was
present at the start or belongs to a CallHTTP unit of the sequence —
in particular a Fork unit contributes none. -/
theorem runTaskList_output_keys (env : ExecEnv) :
    ∀ (tasks : List (String × BuiltUnit)) (data : Variables) (output : OutputMap)
      (k : String),
      outputLookup (runTaskList env tasks data output).2.1 k ≠ none →
      outputLookup output k ≠ none ∨ k ∈ httpKeys tasks := by
  intro tasks
  induction tasks with
  | nil =>
      intro data output k h
      left
      simpa [runTaskList] using h
  | cons p rest ih =>
      intro data output k h
      obtain ⟨kk, t⟩ := p
      rcases hru : runUnit env t data output with ⟨d', o', eff, err?⟩
      cases err? with
      | some e =>
          have hres : (runTaskList env ((kk, t) :: rest) data output).2.1 = o' := by
            simp [runTaskList, hru]
          rw [hres] at h
          rcases runUnit_output_lookup env t data output k (by rw [hru]; exact h)
              with ho | ⟨b, c, hu⟩
          · exact Or.inl ho
          · right
            rw [hu]
            exact List.mem_cons_self _ _
      | none =>
          have hres : (runTaskList env ((kk, t) :: rest) data output).2.1 =
              (runTaskList env rest d' o').2.1 := by
            simp [runTaskList, hru]
          rw [hres] at h
          rcases ih d' o' k h with ho | hm
          · rcases runUnit_output_lookup env t data output k (by rw [hru]; exact ho)
                with ho2 | ⟨b, c, hu⟩
            · exact Or.inl ho2
            · right
              rw [hu]
              exact List.mem_cons_self _ _
          · right
            cases t with
            | httpTask key bb cc => exact List.mem_cons_of_mem _ hm
            | setTask pairs => exact hm
            | waitTask ms => exact hm
            | forkTask fk ch => exact hm
            | listenTask ev ia => exact hm

/-- A fork whose single branch is a single Set task writes the pair into
the PARENT's variable context and touches nothing else. -/
theorem forkRun_single_set_branch (env : ExecEnv) (fk p n : String) (t : Nat)
    (bk k s r : String) (data : Variables) (output : OutputMap)
    (hr : setTaskValue s data = .ok r) :
    runUnit env (.forkTask fk [.mk p n t [(bk, .setTask [(k, .str s)])]]) data output =
      (data.insert k (.str r), output, [], none) := by
  have hset : setTaskRun [(k, .str s)] data = (data.insert k (.str r), none) := by
    simp only [setTaskRun, setTaskInterpolate, hr]
    rfl
  simp only [runUnit, forkRunChildren, forkRunTasks, hset]
  rfl

/-! ## Supporting lemmas: the builder and Validate -/

/-- The builder dispatch produces a unit exactly for the unit-producing
kinds (on a successful build). -/
theorem buildItem_unit_some (w : WorkflowCfg) (item : TaskItem) (u? : Option BuiltUnit)
    (extra : List TemporalWorkflow) (h : buildItem w item = .ok (u?, extra)) :
    u?.isSome = producesUnit item := by
  cases item with
  | set key base pairs =>
      simp only [buildItem] at h
      injection h with h1; injection h1 with h2 h3; rw [← h2]; rfl
  | wait key base ms =>
      simp only [buildItem] at h
      injection h with h1; injection h1 with h2 h3; rw [← h2]; rfl
  | callHTTP key base cfg =>
      simp only [buildItem] at h
      injection h with h1; injection h1 with h2 h3; rw [← h2]; rfl
  | fork key base compete branches =>
      simp only [buildItem] at h
      cases hwb : workflowBuilder w branches (GenerateChildWorkflowName "fork" [key]) with
      | error e => rw [hwb] at h; cases h
      | ok children =>
          rw [hwb] at h
          injection h with h1; injection h1 with h2 h3; rw [← h2]; rfl
  | listen key base lt =>
      simp only [buildItem] at h
      cases hlc : listenConfigure lt key with
      | error e => rw [hlc] at h; cases h
      | ok p =>
          obtain ⟨events, isAll⟩ := p
          rw [hlc] at h
          injection h with h1; injection h1 with h2 h3; rw [← h2]; rfl
  | doTask key base tasks =>
      simp only [buildItem] at h
      cases hwb : workflowBuilder w tasks (GenerateChildWorkflowName "do" [key]) with
      | error e =>
          rw [hwb] at h
          exact Except.noConfusion h
      | ok extra2 =>
          rw [hwb] at h
          injection h with h1
          injection h1 with h2 h3
          rw [← h2]; rfl
  | raise key base =>
      simp only [buildItem] at h
      injection h with h1; injection h1 with h2 h3; rw [← h2]; rfl
  | switchTask key base =>
      simp only [buildItem] at h
      injection h with h1; injection h1 with h2 h3; rw [← h2]; rfl
  | emit key base =>
      simp only [buildItem] at h
      injection h with h1; injection h1 with h2 h3; rw [← h2]; rfl
  | forTask key base =>
      simp only [buildItem] at h
      injection h with h1; injection h1 with h2 h3; rw [← h2]; rfl
  | grpc key base =>
      simp only [buildItem] at h
      injection h with h1; injection h1 with h2 h3; rw [← h2]; rfl
  | openapi key base =>
      simp only [buildItem] at h
      injection h with h1; injection h1 with h2 h3; rw [← h2]; rfl
  | run key base =>
      simp only [buildItem] at h
      injection h with h1; injection h1 with h2 h3; rw [← h2]; rfl
  | tryTask key base =>
      simp only [buildItem] at h
      injection h with h1; injection h1 with h2 h3; rw [← h2]; rfl

/-- On a successful build, the main workflow's task keys are exactly the
keys of the unit-producing tasks, in document order — every other task is
dropped without failing the build. -/
theorem buildLoop_keys (w : WorkflowCfg) :
    ∀ (tasks : List TaskItem) (units : List (String × BuiltUnit))
      (extras : List TemporalWorkflow), buildLoop w tasks = .ok (units, extras) →
      units.map Prod.fst = (tasks.filter producesUnit).map TaskItem.key := by
  intro tasks
  induction tasks with
  | nil =>
      intro units extras h
      simp only [buildLoop] at h
      injection h with h1
      injection h1 with h2 h3
      rw [← h2]
      rfl
  | cons item rest ih =>
      intro units extras h
      simp only [buildLoop] at h
      cases hbi : buildItem w item with
      | error e =>
          rw [hbi] at h
          exact Except.noConfusion h
      | ok p =>
          obtain ⟨u?, extra⟩ := p
          rw [hbi] at h
          cases hbl : buildLoop w rest with
          | error e =>
              rw [hbl] at h
              exact Except.noConfusion h
          | ok q =>
              obtain ⟨units', extras'⟩ := q
              rw [hbl] at h
              have hkeys := ih units' extras' hbl
              have hpu := buildItem_unit_some w item u? extra hbi
              cases u? with
              | some u =>
                  injection h with h1
                  injection h1 with h2 h3
                  rw [← h2]
                  have : producesUnit item = true := by rw [← hpu]; rfl
                  rw [List.filter_cons, if_pos (by rw [this])]
                  simp only [List.map_cons, hkeys]
              | none =>
                  injection h with h1
                  injection h1 with h2 h3
                  rw [← h2]
                  have : producesUnit item = false := by rw [← hpu]; rfl
                  rw [List.filter_cons, if_neg (by rw [this]; exact Bool.false_ne_true)]
                  exact hkeys

/-- `Validate` returns an error whenever the document contains a Fork,
Listen, Raise, or Switch task. -/
theorem Validate_rejects :
    ∀ tasks : List TaskItem, (∃ t ∈ tasks, validateRejectedKind t = true) →
      Validate tasks ≠ none := by
  intro tasks
  induction tasks with
  | nil => intro h; simp at h
  | cons t rest ih =>
      intro h
      cases hvt : validateTask t with
      | some e => simp [Validate, hvt]
      | none =>
          simp only [Validate, hvt]
          apply ih
          rcases h with ⟨x, hx, hrx⟩
          rcases List.mem_cons.mp hx with rfl | hxr
          · exfalso
            cases x <;> simp_all [validateTask, validateRejectedKind]
          · exact ⟨x, hxr, hrx⟩

/-! ## The claims -/

/-- C1 counterexample: a task list holding a single Raise task — a kind
outside the supported set — builds WITHOUT error (no `ErrUnsupportedTask`)
and the built workflow's task list is empty: the task was silently
dropped, refuting both halves of the claim. -/
theorem C1_counterexample_raise_silently_dropped :
    workflowBuilder {} [.raise "oops" {}] "example" =
      .ok [.mk "" "example" 300000 []] := by
  simp only [workflowBuilder, buildLoop, buildItem]
  rfl

/-- C1 (amended): the build never fails on an unsupported task kind.
Whenever `workflowBuilder` succeeds, the main workflow holds exactly the
unit-producing tasks (CallHTTP, Fork, Listen, Set, Wait) in document
order, with every other kind silently dropped; `ErrUnsupportedTask` is
produced only for a Listen task's `until` filter. -/
theorem C1_builder_drops_unsupported_kinds :
    (∀ (w : WorkflowCfg) (tasks : List TaskItem) (name : String)
        (wfs : List TemporalWorkflow), workflowBuilder w tasks name = .ok wfs →
        ∃ extras units,
          wfs = extras ++ [TemporalWorkflow.mk w.envPrefix name w.timeoutMs units] ∧
          units.map Prod.fst = (tasks.filter producesUnit).map TaskItem.key) ∧
    listenConfigure { untilF := some "deadline" } "l" =
      .error (.unsupportedTask "listen.to.until") := by
  constructor
  · intro w tasks name wfs h
    simp only [workflowBuilder] at h
    cases hbl : buildLoop w tasks with
    | error e =>
        rw [hbl] at h
        exact Except.noConfusion h
    | ok p =>
        obtain ⟨units, extras⟩ := p
        rw [hbl] at h
        injection h with h1
        exact ⟨extras, units, h1.symm, buildLoop_keys w tasks units extras hbl⟩
  · rfl

/-- C2 counterexample: a fork whose single branch runs a CallHTTP task to
completion (the effect trace shows the call happened and the join saw no
error), yet the parent's OutputMap stays empty — no namespaced
`forkKey_b1` entry is ever merged. -/
theorem C2_counterexample_branch_output_discarded :
    runUnit (mkEnv .null okResp)
      (.forkTask "forkKey"
        [.mk "" "workflow_fork_forkKey" 300000
          [("b1", .httpTask "b1" {} { method := "get", endpoint := "https://x" })]])
      ⟨[]⟩ [] =
      (⟨[]⟩, ([] : OutputMap), [.httpCall "b1"], none) ∧
    outputLookup ([] : OutputMap) "forkKey_b1" = none := ⟨by rfl, rfl⟩

/-- C2 (amended): the fork merges nothing into the parent's OutputMap —
whether its branches succeed or fail, the parent map is returned untouched
(zero entries gained), and across any sequence the only units that ever
add an OutputMap entry are CallHTTP units under their own task key. -/
theorem C2_fork_contributes_no_output :
    (∀ (env : ExecEnv) (fk : String) (children : List TemporalWorkflow)
        (data : Variables) (output : OutputMap),
        (runUnit env (.forkTask fk children) data output).2.1 = output) ∧
    (∀ (env : ExecEnv) (tasks : List (String × BuiltUnit)) (data : Variables)
        (output : OutputMap) (k : String),
        outputLookup (runTaskList env tasks data output).2.1 k ≠ none →
        outputLookup output k ≠ none ∨ k ∈ httpKeys tasks) := by
  constructor
  · intro env fk children data output
    rcases hf : forkRunChildren env children data with ⟨d, pe⟩
    simp [runUnit, hf]
  · exact runTaskList_output_keys

/-- C3 counterexample: two fork branches run against the very same
variable map: branch `b1` writes `x`, branch `b2` reads it back through
interpolation, and after the join the PARENT's context holds both writes —
the branches shared one context and the writes reached the parent. -/
theorem C3_counterexample_branch_writes_shared_context :
    runUnit (mkEnv .null okResp)
      (.forkTask "f"
        [.mk "" "workflow_fork_f" 300000 [("b1", .setTask [("x", .str "1")])],
         .mk "" "workflow_fork_f" 300000
           [("b2", .setTask [("y", .str "\x7b\x7b .x \x7d\x7d")])]])
      ⟨[]⟩ [] =
    (⟨[("x", .str "1"), ("y", .str "1")]⟩, ([] : OutputMap), [], none) := by rfl

/-- C3 (amended): every branch receives the parent's VariableContext
itself, not a clone — a branch's Set lands directly in the parent's
variable map (each branch only gets a fresh private OutputMap), and the
one shared context is threaded through all branches in spawn order. -/
theorem C3_fork_branches_share_parent_context :
    (∀ (env : ExecEnv) (fk p n : String) (t : Nat) (bk k s r : String)
        (data : Variables) (output : OutputMap),
        setTaskValue s data = .ok r →
        runUnit env (.forkTask fk [.mk p n t [(bk, .setTask [(k, .str s)])]])
            data output =
          (data.insert k (.str r), output, [], none)) ∧
    (∀ (env : ExecEnv) (fk : String) (children : List TemporalWorkflow)
        (data : Variables) (output : OutputMap),
        (runUnit env (.forkTask fk children) data output).1 =
          (forkRunChildren env children data).1) := by
  constructor
  · exact forkRun_single_set_branch
  · intro env fk children data output
    rcases hf : forkRunChildren env children data with ⟨d, pe⟩
    simp [runUnit, hf]

/-- C4 counterexample: a Set task carrying the guard `"false"` — which the
expression engine evaluates to `false` — is built into a unit that ignores
the guard and still mutates the VariableContext when run. -/
theorem C4_counterexample_set_ignores_guard :
    buildItem {} (.set "step1" ⟨some "false"⟩ [("x", .str "1")]) =
      .ok (some (.setTask [("x", .str "1")]), []) ∧
    CheckIfStatement (jqConstEngine (.bool false)) (some "false") ⟨[]⟩ = .ok false ∧
    runUnit (mkEnv (.bool false) okResp) (.setTask [("x", .str "1")]) ⟨[]⟩ [] =
      (⟨[("x", .str "1")]⟩, ([] : OutputMap), [], none) ∧
    (⟨[("x", .str "1")]⟩ : Variables).lookup "x" = some (.str "1") := by
  refine ⟨by simp only [buildItem], rfl, by rfl, rfl⟩

/-- C4 (amended): only CallHTTP units evaluate their guard — for them a
false guard skips the unit entirely (no OutputMap entry, no context
change, no effect) — while Set and Wait units are built without their
guard and run unconditionally. -/
theorem C4_guard_skip_only_for_http :
    (∀ (env : ExecEnv) (key : String) (base : TaskBase) (cfg : CallHTTPConfig)
        (data : Variables) (output : OutputMap),
        CheckIfStatement env.jq base.ifExpr data = .ok false →
        runUnit env (.httpTask key base cfg) data output =
          (data, output, [], none)) ∧
    (∀ (w : WorkflowCfg) (key : String) (base : TaskBase)
        (pairs : List (String × GoAny)),
        buildItem w (.set key base pairs) = .ok (some (.setTask pairs), [])) ∧
    (∀ (w : WorkflowCfg) (key : String) (base : TaskBase) (ms : Nat),
        buildItem w (.wait key base ms) = .ok (some (.waitTask ms), [])) := by
  refine ⟨?_, ?_, ?_⟩
  · intro env key base cfg data output h
    simp only [runUnit, h]
  · intro w key base pairs
    simp only [buildItem]
  · intro w key base ms
    simp only [buildItem]

/-- C5: the CallHTTP activity classifies responses exactly as claimed —
2xx/3xx succeed (body kept as raw text when the JSON decode fails, as
structured JSON when it succeeds), 4xx raises a non-retryable application
error carrying status and body, 5xx raises a retryable one with the same
detail, and a successful activity result is merged into the OutputMap
under the task's identifier. -/
theorem C5_http_response_classification :
    (∀ (jp : JsonParse) (resp : HttpResponse) (m u : String),
        200 ≤ resp.statusCode → resp.statusCode < 400 → jp resp.body = none →
        classifyHTTPResponse jp resp m u = .ok
          { body := resp.body, bodyJSON := none, method := m,
            status := resp.status, statusCode := resp.statusCode, url := u }) ∧
    (∀ (jp : JsonParse) (resp : HttpResponse) (m u : String)
        (o : List (String × GoAny)),
        200 ≤ resp.statusCode → resp.statusCode < 400 → jp resp.body = some o →
        classifyHTTPResponse jp resp m u = .ok
          { body := "", bodyJSON := some o, method := m,
            status := resp.status, statusCode := resp.statusCode, url := u }) ∧
    (∀ (jp : JsonParse) (resp : HttpResponse) (m u : String),
        400 ≤ resp.statusCode → resp.statusCode < 500 →
        classifyHTTPResponse jp resp m u =
          .error (.nonRetryable "CallHTTP returned 4xx error"
            (httpErrDetails resp.statusCode
              (match jp resp.body with | some _ => "" | none => resp.body)
              (jp resp.body)))) ∧
    (∀ (jp : JsonParse) (resp : HttpResponse) (m u : String),
        500 ≤ resp.statusCode → resp.statusCode < 600 →
        classifyHTTPResponse jp resp m u =
          .error (.retryable "CallHTTP returned 5xx error"
            (httpErrDetails resp.statusCode
              (match jp resp.body with | some _ => "" | none => resp.body)
              (jp resp.body)))) ∧
    (∀ (env : ExecEnv) (key : String) (base : TaskBase) (cfg : CallHTTPConfig)
        (data : Variables) (output : OutputMap) (m url : String)
        (r : CallHTTPResult),
        CheckIfStatement env.jq base.ifExpr data = .ok true →
        MustParseVariables cfg.method data = .ok m →
        MustParseVariables cfg.endpoint data = .ok url →
        classifyHTTPResponse env.jsonParse (env.http key) m.toUpper url = .ok r →
        runUnit env (.httpTask key base cfg) data output =
          (data, outputInsert output key ⟨.callHTTPResult, callHTTPResultToGoAny r⟩,
           [.httpCall key], none)) := by
  refine ⟨?_, ?_, ?_, ?_, ?_⟩
  · intro jp resp m u h1 h2 hj
    simp only [classifyHTTPResponse, hj]
    rw [if_neg (by omega), if_neg (by omega)]
  · intro jp resp m u o h1 h2 hj
    simp only [classifyHTTPResponse, hj]
    rw [if_neg (by omega), if_neg (by omega)]
  · intro jp resp m u h1 h2
    simp only [classifyHTTPResponse]
    rw [if_pos ⟨h1, h2⟩]
  · intro jp resp m u h1 h2
    simp only [classifyHTTPResponse]
    rw [if_neg (by omega), if_pos ⟨by omega, h2⟩]
  · intro env key base cfg data output m url r h1 h2 h3 h4
    simp only [runUnit, h1, h2, h3, h4]

/-- C6 counterexample: an expression the gojq engine fails to PARSE is
returned as a plain wrapped error — not as a non-retryable application
error — refuting the claim that any parse error carries the non-retryable
classification. -/
theorem C6_counterexample_parse_error_plain :
    CheckIfStatement jqParseFailEngine (some "(") ⟨[]⟩ =
      .error (.plain "unable to parse if statement as expression: unexpected token <EOF>") ∧
    (RunErr.plain "unable to parse if statement as expression: unexpected token <EOF>").isNonRetryable
      = false := ⟨rfl, rfl⟩

/-- C6 (amended): a guard evaluating to one value is truthy exactly per
the spec's table (boolean true, or a string case-insensitively equal to
"true" or equal to "1"; all else falsy); an EVALUATION error is classified
non-retryable; a PARSE error aborts too but as a plain unclassified error;
and either error aborts the enclosing CallHTTP task before any effect. -/
theorem C6_guard_truthiness_and_error_classes :
    (∀ (jq : JqEngine) (e : String) (data : Variables) (q : String) (v : GoAny),
        jq.parse (sanitizeExpr e) = .ok q → jq.run q data.data = [.val v] →
        CheckIfStatement jq (some e) data = .ok (specTruthy v)) ∧
    (∀ (jq : JqEngine) (e : String) (data : Variables) (q msg : String)
        (rest : List JqResult),
        jq.parse (sanitizeExpr e) = .ok q → jq.run q data.data = .err msg :: rest →
        CheckIfStatement jq (some e) data =
          .error (.nonRetryable ("Error parsing if statement in JQ: " ++ msg) .null)) ∧
    (∀ (jq : JqEngine) (e : String) (data : Variables) (msg : String),
        jq.parse (sanitizeExpr e) = .error msg →
        CheckIfStatement jq (some e) data =
          .error (.plain ("unable to parse if statement as expression: " ++ msg))) ∧
    (∀ (env : ExecEnv) (key : String) (base : TaskBase) (cfg : CallHTTPConfig)
        (data : Variables) (output : OutputMap) (err : RunErr),
        CheckIfStatement env.jq base.ifExpr data = .error err →
        runUnit env (.httpTask key base cfg) data output =
          (data, output, [], some err)) ∧
    (∀ m d, (RunErr.nonRetryable m d).isNonRetryable = true) ∧
    (∀ m, (RunErr.plain m).isNonRetryable = false) := by
  refine ⟨?_, ?_, ?_, ?_, fun m d => rfl, fun m => rfl⟩
  · intro jq e data q v hp hr
    simp only [CheckIfStatement, hp, hr, jqIterate]
    cases v <;> rfl
  · intro jq e data q msg rest hp hr
    simp only [CheckIfStatement, hp, hr, jqIterate]
  · intro jq e data msg hp
    simp only [CheckIfStatement, hp]
  · intro env key base cfg data output err h
    simp only [runUnit, h]

/-- C7 counterexample: rendering `\x7b\x7b .userId \x7d\x7d` against an
empty context does NOT return an error — it succeeds with the placeholder
string `<no value>`, refuting the claim that an absent path yields an
error rather than a placeholder. -/
theorem C7_counterexample_absent_path_placeholder :
    ParseVariables "\x7b\x7b .userId \x7d\x7d" ⟨[]⟩ = .ok "<no value>" := by rfl

/-- C7 (amended): `ParseVariables` errors whenever the template fails to
parse, and a literal-only template is returned unchanged; but a reference
to a path absent from the context does not error — with `missingkey` left
at its default, it renders the `<no value>` placeholder. -/
theorem C7_render_errors_and_literals :
    (∀ (s : String) (data : Variables), noActionOpener s.data = true →
        ParseVariables s data = .ok s) ∧
    (∀ data : Variables,
        ParseVariables "\x7b\x7b" data = .error "template: unclosed action") ∧
    (∀ (name : String) (data : Variables), isIdentName name = true →
        data.lookup name = none →
        ParseVariables ("\x7b\x7b ." ++ name ++ " \x7d\x7d") data =
          .ok "<no value>") := by
  exact ⟨ParseVariables_literal, fun data => rfl, ParseVariables_missing_field⟩

/-- C8 counterexample: a Set pair whose KEY is a template is assigned
under the verbatim key — the rendered key `x` is absent from the resulting
context — refuting the claim that the key is interpolated before
assignment; and a Set pair whose VALUE is the integer `2` is assigned as
`nil` (the default branch never sets the named return), refuting the
claim that non-string leaves pass through unchanged. -/
theorem C8_counterexample_top_level_key_not_interpolated :
    setTaskRun [("\x7b\x7b .k \x7d\x7d", .str "v")] ⟨[("k", .str "x")]⟩ =
      (⟨[("k", .str "x"), ("\x7b\x7b .k \x7d\x7d", .str "v")]⟩, none) ∧
    (⟨[("k", .str "x"), ("\x7b\x7b .k \x7d\x7d", .str "v")]⟩ : Variables).lookup "x"
      = none ∧
    setTaskRun [("userId", .int 2)] ⟨[]⟩ = (⟨[("userId", .null)]⟩, none) :=
  ⟨by rfl, rfl, by rfl⟩

/-- C8 (amended): the VALUE of every Set pair is passed through
`setTaskInterpolate` before assignment — string leaves rendered, nested
object keys and leaves rendered, array elements recursed — but the
TOP-LEVEL key is used verbatim, without interpolation, and non-string
leaves are NOT kept: the default branch never assigns the named return,
so every integer, boolean or null leaf is replaced by `nil`. -/
theorem C8_set_value_interpolation :
    (∀ (k : String) (v : GoAny) (data : Variables) (v' : GoAny),
        setTaskInterpolate v data = .ok v' →
        setTaskRun [(k, v)] data = (data.insert k v', none)) ∧
    (∀ (s : String) (data : Variables) (r : String),
        setTaskValue s data = .ok r →
        setTaskInterpolate (.str s) data = .ok (.str r)) ∧
    (∀ (n : Int) (data : Variables),
        setTaskInterpolate (.int n) data = .ok .null) ∧
    (∀ (b : Bool) (data : Variables),
        setTaskInterpolate (.bool b) data = .ok .null) ∧
    (∀ data : Variables, setTaskInterpolate .null data = .ok .null) ∧
    (∀ (k : String) (v : GoAny) (data : Variables) (k' : String) (v' : GoAny),
        setTaskValue k data = .ok k' → setTaskInterpolate v data = .ok v' →
        setTaskInterpolate (.obj [(k, v)]) data = .ok (.obj [(k', v')])) ∧
    (∀ (x : GoAny) (data : Variables) (x' : GoAny),
        setTaskInterpolate x data = .ok x' →
        setTaskInterpolate (.arr [x]) data = .ok (.arr [x'])) := by
  refine ⟨?_, ?_, fun n data => rfl, fun b data => rfl, fun data => rfl, ?_, ?_⟩
  · intro k v data v' h
    simp only [setTaskRun, h]
  · intro s data r h
    simp only [setTaskInterpolate, h]
    rfl
  · intro k v data k' v' hk hv
    simp only [setTaskInterpolate, setTaskInterpolateObj, hk, hv]
    rfl
  · intro x data x' h
    simp only [setTaskInterpolate, setTaskInterpolateArr, h]
    rfl

/-- C9: in `all` mode the Listen completion predicate holds exactly when
every entry of the completion vector is true — with 2 of 3 handlers fired
the await stays unsatisfied (timeout path), and with all 3 fired the wait
resolves successfully. -/
theorem C9_listen_all_requires_every_handler :
    (∀ (v : List Bool) (anyC : Bool),
        listenComplete true anyC v = true ↔ ∀ b ∈ v, b = true) ∧
    waitForListener true false [true, true, false] = .error .timeout ∧
    waitForListener true false [true, true, true] = .ok () := by
  refine ⟨?_, rfl, rfl⟩
  intro v anyC
  show SlicesEqual v true = true ↔ ∀ b ∈ v, b = true
  induction v with
  | nil => simp [SlicesEqual]
  | cons r t ih =>
      by_cases hr : r = true
      · subst hr
        simpa [SlicesEqual] using ih
      · simp only [SlicesEqual, if_neg hr]
        constructor
        · intro hfalse; exact absurd hfalse (by simp)
        · intro hall; exact absurd (hall r (List.mem_cons_self r t)) hr

/-- C10 counterexample: a document with one Raise task: `Validate` rejects
it, but `BuildWorkflows` does NOT build an executable unit for it — the
build succeeds with an empty task list — refuting the clause that
`BuildWorkflows` builds executable units for those same kinds. -/
theorem C10_counterexample_raise_not_built :
    Validate [.raise "r" {}] = some "raise tasks are not supported" ∧
    BuildWorkflows {} [.raise "r" {}] = .ok [.mk "" "example" 300000 []] := by
  refine ⟨rfl, ?_⟩
  simp only [BuildWorkflows, workflowBuilder, buildLoop, buildItem]
  rfl

/-- C10 (amended): `Validate` returns an error for any document containing
a Fork, Listen, Raise, or Switch task; of those kinds the builder produces
executable units only for Fork and Listen — Raise and Switch tasks yield
no unit and are silently dropped. -/
theorem C10_validate_rejects_built_kinds :
    (∀ tasks : List TaskItem, (∃ t ∈ tasks, validateRejectedKind t = true) →
        Validate tasks ≠ none) ∧
    buildItem {} (.fork "f" {} false []) =
      .ok (some (.forkTask "f" [.mk "" "workflow_fork_f" 300000 []]), []) ∧
    buildItem {} (.listen "l" {} { one := some ⟨"sig", "update", none⟩ }) =
      .ok (some (.listenTask [⟨"sig", "update", none⟩] false), []) ∧
    buildItem {} (.raise "r" {}) = .ok (none, []) ∧
    buildItem {} (.switchTask "s" {}) = .ok (none, []) := by
  refine ⟨Validate_rejects, ?_, ?_, ?_, ?_⟩
  · simp only [buildItem, workflowBuilder, buildLoop]
    rfl
  · simp only [buildItem]
    rfl
  · simp only [buildItem]
  · simp only [buildItem]

end TSW
